import Mathlib

/-!
Verification of `scripts/generate_splash.py` (Asteron splash-screen generator).

The script is embedded shallowly: PIL images become structures with a pixel
function, PIL drawing/compositing primitives become Lean functions following
Pillow's documented semantics, and the script's own functions
(`round_corners`, `create_splash_screen`, `main`) are translated line by line.
The filesystem is an abstract read-only map from paths to optionally decodable
images; writes are collected as a list of (path, image) pairs.

Pillow semantics used here:
* `ImageDraw.ellipse(bbox, fill)` paints the pixel at integer coordinates
  (x, y) iff it lies inside the ellipse inscribed in the INCLUSIVE bounding
  box `(x0, y0, x1, y1)`; in doubled integer coordinates the condition is
  `(y1-y0)^2 (2x-(x0+x1))^2 + (x1-x0)^2 (2y-(y0+y1))^2 ≤ (x1-x0)^2 (y1-y0)^2`.
  For the call `ellipse((0, 0, 2r, 2r))` this is `(x-r)^2 + (y-r)^2 ≤ r^2`:
  a circle centred at the integer pixel (r, r), whose last row and column
  (coordinate 2r) fall outside a 2r×2r image and are clipped.
* `Image.paste(src, (ox, oy))` without a mask copies the source rectangle;
  negative offsets clip the source.
* `Image.paste(src, (ox, oy), mask)` blends per channel:
  `out = (dst*(255-m) + src*m) / 255`; for the binary masks produced in this
  script (m ∈ {0, 255}) this is an exact select.
* `putalpha(band)` REPLACES the alpha channel with the given band.
* `Image.new(mode, size, "#rrggbb")` fills with the colour, alpha = 255.
* `resize((w, h), LANCZOS)` returns an image of exactly the requested size
  whose pixels are a function of the source pixels; the Lanczos kernel itself
  is modelled by point sampling, since no theorem below depends on resampled
  pixel values — only on the output dimensions and on the output being a
  deterministic function of the input image.
-/

namespace Splash

/-- An RGBA pixel; for images in RGB mode the `a` component is kept at 255. -/
structure Pix where
  r : Nat
  g : Nat
  b : Nat
  a : Nat
deriving DecidableEq, Repr

/-- PIL image modes used by the script. -/
inductive Mode where
  | RGB
  | RGBA
  | L
deriving DecidableEq, Repr

/-- A colour image: mode tag, dimensions, and a total pixel function
(only coordinates below the dimensions are meaningful). -/
structure Img where
  mode : Mode
  width : Nat
  height : Nat
  px : Nat → Nat → Pix

/-- A single-band ('L' mode) image, as used for the opacity mask. -/
structure Gray where
  width : Nat
  height : Nat
  px : Nat → Nat → Nat

/-- Model of `Image.new('L', (w, h), v)`. -/
def Gray.full (w h v : Nat) : Gray :=
  ⟨w, h, fun _ _ => v⟩

/-- Model of `crop((x0, y0, x1, y1))` on an 'L' image. -/
def Gray.crop (g : Gray) (x0 y0 x1 y1 : Nat) : Gray :=
  ⟨x1 - x0, y1 - y0, fun u v => g.px (x0 + u) (y0 + v)⟩

/-- Model of `dst.paste(src, (ox, oy))` (no mask) on 'L' images: the source
rectangle is copied; negative offsets clip the source, as in Pillow. -/
def Gray.paste (dst src : Gray) (ox oy : Int) : Gray :=
  ⟨dst.width, dst.height, fun x y =>
    if ox ≤ (x : Int) ∧ (x : Int) < ox + (src.width : Int) ∧
        oy ≤ (y : Int) ∧ (y : Int) < oy + (src.height : Int) then
      src.px ((x : Int) - ox).toNat ((y : Int) - oy).toNat
    else
      dst.px x y⟩

/-- Model of `ImageDraw.Draw(g).ellipse((x0, y0, x1, y1), fill)`: Pillow paints
pixel (x, y) iff it satisfies the inscribed-ellipse inequality over the
inclusive bounding box, written in doubled integer coordinates. -/
def Gray.ellipseFill (g : Gray) (x0 y0 x1 y1 : Int) (fill : Nat) : Gray :=
  ⟨g.width, g.height, fun x y =>
    if (y1 - y0) ^ 2 * (2 * (x : Int) - (x0 + x1)) ^ 2 +
        (x1 - x0) ^ 2 * (2 * (y : Int) - (y0 + y1)) ^ 2 ≤
        (x1 - x0) ^ 2 * (y1 - y0) ^ 2 then
      fill
    else
      g.px x y⟩

-- Configuration constants of the script.

/-- `LOGO_PATH = "assets/AI_Companion_icon.png"`. -/
def LOGO_PATH : String := "assets/AI_Companion_icon.png"

/-- `OUTPUT_DIR = "assets"`. -/
def OUTPUT_DIR : String := "assets"

/-- `SPLASH_WIDTH = 1284`. -/
def SPLASH_WIDTH : Nat := 1284

/-- `SPLASH_HEIGHT = 2778`. -/
def SPLASH_HEIGHT : Nat := 2778

/-- `LOGO_SIZE = 480`. -/
def LOGO_SIZE : Nat := 480

/-- `LOGO_RADIUS = 120`. -/
def LOGO_RADIUS : Nat := 120

/-- `DARK_BG = "#000000"`, as PIL parses it for an RGB/RGBA fill. -/
def DARK_BG : Pix := ⟨0, 0, 0, 255⟩

/-- `LIGHT_BG = "#F2F2F7"`, as PIL parses it for an RGB/RGBA fill. -/
def LIGHT_BG : Pix := ⟨242, 242, 247, 255⟩

/-- The disc stamp of `round_corners`:
`circle = Image.new('L', (radius*2, radius*2), 0)` followed by
`draw.ellipse((0, 0, radius*2, radius*2), fill=255)`. -/
def circleStamp (radius : Nat) : Gray :=
  (Gray.full (radius * 2) (radius * 2) 0).ellipseFill 0 0
    ((radius : Int) * 2) ((radius : Int) * 2) 255

/-- The opacity mask built inside `round_corners` for an image of size (w, h):
`alpha = Image.new('L', image.size, 255)` and the four quadrant pastes of the
disc stamp at the four corners. -/
def roundMask (w h radius : Nat) : Gray :=
  let circle := circleStamp radius
  let alpha := Gray.full w h 255
  let alpha := alpha.paste (circle.crop 0 0 radius radius) 0 0
  let alpha := alpha.paste (circle.crop radius 0 (radius * 2) radius)
    ((w : Int) - (radius : Int)) 0
  let alpha := alpha.paste (circle.crop 0 radius radius (radius * 2))
    0 ((h : Int) - (radius : Int))
  let alpha := alpha.paste (circle.crop radius radius (radius * 2) (radius * 2))
    ((w : Int) - (radius : Int)) ((h : Int) - (radius : Int))
  alpha

/-- Model of `image.putalpha(alpha)`: the alpha channel is REPLACED by the
given band (the image becomes RGBA if it was not). -/
def Img.putalpha (img : Img) (g : Gray) : Img :=
  { img with mode := .RGBA, px := fun x y => { img.px x y with a := g.px x y } }

/-- `round_corners(image, radius)`: build the disc stamp, assemble the corner
mask, and install it as the image's alpha channel via `putalpha`. -/
def round_corners (image : Img) (radius : Nat) : Img :=
  image.putalpha (roundMask image.width image.height radius)

/-- Model of `Image.new(mode, (w, h), c)`. -/
def Img.new (mode : Mode) (w h : Nat) (c : Pix) : Img :=
  ⟨mode, w, h, fun _ _ => c⟩

/-- Model of `convert('RGBA')`: an image already in RGBA is unchanged;
otherwise the alpha band is filled with 255. -/
def Img.convertRGBA (img : Img) : Img :=
  { img with
    mode := .RGBA
    px := fun x y =>
      if img.mode = .RGBA then img.px x y else { img.px x y with a := 255 } }

/-- Model of `resize((nw, nh), Image.Resampling.LANCZOS)`: exact output
dimensions; the resampled pixels are modelled by point sampling (see the file
header — no theorem depends on the resampling kernel). -/
def Img.resize (img : Img) (nw nh : Nat) : Img :=
  ⟨img.mode, nw, nh, fun x y => img.px (x * img.width / nw) (y * img.height / nh)⟩

/-- One channel of Pillow's masked paste: `(dst*(255-m) + src*m) / 255`. -/
def blendChan (d s m : Nat) : Nat :=
  (d * (255 - m) + s * m) / 255

/-- Pillow's masked paste applied to all four bands of a pixel. -/
def blendPix (d s : Pix) (m : Nat) : Pix :=
  ⟨blendChan d.r s.r m, blendChan d.g s.g m, blendChan d.b s.b m,
    blendChan d.a s.a m⟩

/-- Model of `dst.paste(src, (ox, oy), src)` — paste with the RGBA source
itself as mask, as both paste calls in the script do: inside the source
rectangle each band is blended with the source pixel's alpha as mask weight;
an RGB destination keeps no alpha band (kept at 255 here). -/
def Img.pasteMasked (dst src : Img) (ox oy : Int) : Img :=
  { dst with px := fun x y =>
      if ox ≤ (x : Int) ∧ (x : Int) < ox + (src.width : Int) ∧
          oy ≤ (y : Int) ∧ (y : Int) < oy + (src.height : Int) then
        let s := src.px ((x : Int) - ox).toNat ((y : Int) - oy).toNat
        let p := blendPix (dst.px x y) s s.a
        if dst.mode = .RGB then { p with a := 255 } else p
      else
        dst.px x y }

/-- `logo_x = (SPLASH_WIDTH - LOGO_SIZE) // 2`. -/
def logo_x : Nat := (SPLASH_WIDTH - LOGO_SIZE) / 2

/-- `logo_y = (SPLASH_HEIGHT - LOGO_SIZE) // 2`. -/
def logo_y : Nat := (SPLASH_HEIGHT - LOGO_SIZE) / 2

/-- The pure image pipeline of `create_splash_screen` once the logo has been
decoded: canvas, convert, resize, round corners, centred masked paste, and
the defensive flatten onto an opaque RGB background. The PNG encoding of the
`save` call is lossless and is identified with the image itself. -/
def compose_splash (logo0 : Img) (bg : Pix) : Img :=
  let splash := Img.new .RGBA SPLASH_WIDTH SPLASH_HEIGHT bg
  let logo := logo0.convertRGBA
  let logo := logo.resize LOGO_SIZE LOGO_SIZE
  let logo := round_corners logo LOGO_RADIUS
  let splash := splash.pasteMasked logo (logo_x : Int) (logo_y : Int)
  let final := Img.new .RGB SPLASH_WIDTH SPLASH_HEIGHT bg
  let final := final.pasteMasked splash 0 0
  final

/-- The abstract filesystem seen by the script: which paths exist, and the
decoded image at a path (`none` when `Image.open` would fail). -/
structure FS where
  pathExists : String → Bool
  read : String → Option Img

/-- `create_splash_screen(logo_path, output_path, bg_color)`: `Image.open`
failure propagates as an uncaught fault (modelled as `Except.error`);
otherwise the composed image is the file written to the output path. -/
def create_splash_screen (fs : FS) (logo_path : String) (bg : Pix) :
    Except String Img :=
  match fs.read logo_path with
  | none => .error "cannot identify image file"
  | some logo0 => .ok (compose_splash logo0 bg)

/-- Path of the dark-mode output, `os.path.join(OUTPUT_DIR, "splash-dark.png")`. -/
def dark_output : String := OUTPUT_DIR ++ "/splash-dark.png"

/-- Path of the light-mode output, `os.path.join(OUTPUT_DIR, "splash-light.png")`. -/
def light_output : String := OUTPUT_DIR ++ "/splash-light.png"

/-- Result of a run of `main`: the files written (in order) and the console
messages that matter to the spec. -/
structure RunResult where
  outputs : List (String × Img)
  msgs : List String

/-- `main()`: check the logo exists (if not, print a diagnostic and return
normally, writing nothing); otherwise generate the dark then the light splash.
`os.chdir`/`os.makedirs` manipulate the ambient directory and are not part of
the image-level state modelled here. -/
def main (fs : FS) : Except String RunResult :=
  if fs.pathExists LOGO_PATH = false then
    .ok ⟨[], ["Error: Logo not found at " ++ LOGO_PATH]⟩
  else
    match create_splash_screen fs LOGO_PATH DARK_BG with
    | .error e => .error e
    | .ok dark =>
      match create_splash_screen fs LOGO_PATH LIGHT_BG with
      | .error e => .error e
      | .ok light =>
        .ok ⟨[(dark_output, dark), (light_output, light)],
          ["Generating splash screens...",
            "Created: " ++ dark_output,
            "Created: " ++ light_output,
            "All splash screens generated successfully!"]⟩

/-- Squared Euclidean distance between integer points, used to state the
quarter-circle conditions. -/
def sqDist (x y cx cy : Int) : Int :=
  (x - cx) ^ 2 + (y - cy) ^ 2

/-- A fully transparent 480×480 RGBA test image. -/
def clearImage : Img :=
  ⟨.RGBA, 480, 480, fun _ _ => ⟨0, 0, 0, 0⟩⟩

/-- A 2×2 RGBA test image, smaller than twice the corner radius 2. -/
def tinyImage : Img :=
  ⟨.RGBA, 2, 2, fun _ _ => ⟨7, 7, 7, 255⟩⟩

/-- A 1×1 RGB test logo. -/
def onePxLogo : Img :=
  ⟨.RGB, 1, 1, fun _ _ => ⟨5, 6, 7, 255⟩⟩

/-- A filesystem on which every path exists and decodes to the test logo. -/
def logoFS : FS :=
  ⟨fun _ => true, fun _ => some onePxLogo⟩

/-- A filesystem with no files at all. -/
def emptyFS : FS :=
  ⟨fun _ => false, fun _ => none⟩

theorem circleStamp_px (r u v : Nat) (hr : 0 < r) :
    (circleStamp r).px u v =
      if sqDist u v r r ≤ (r : Int) ^ 2 then 255 else 0 := by
  have hpos : (0 : Int) < ((r : Int) * 2) ^ 2 := by positivity
  simp only [circleStamp, Gray.ellipseFill, Gray.full, sqDist, sub_zero, zero_add]
  split_ifs with h1 h2 h2
  · rfl
  · exfalso
    apply h2
    nlinarith [h1, hpos]
  · exfalso
    apply h1
    nlinarith [h2, hpos]
  · rfl

theorem roundMask_px_tl (w h r x y : Nat) (hw : 2 * r ≤ w) (hh : 2 * r ≤ h)
    (hx1 : x < r) (hy1 : y < r) :
    (roundMask w h r).px x y = (circleStamp r).px x y := by
  simp only [roundMask, Gray.paste, Gray.crop, Gray.full]
  split_ifs with h1 h2 h3 h4
  · exfalso; omega
  · exfalso; omega
  · exfalso; omega
  · congr 1 <;> omega
  · exfalso; omega

theorem roundMask_px_tr (w h r x y : Nat) (hw : 2 * r ≤ w) (hh : 2 * r ≤ h)
    (hx2 : w - r ≤ x) (hxw : x < w) (hy1 : y < r) :
    (roundMask w h r).px x y = (circleStamp r).px (r + (x - (w - r))) y := by
  simp only [roundMask, Gray.paste, Gray.crop, Gray.full]
  split_ifs with h1 h2 h3 h4
  · exfalso; omega
  · exfalso; omega
  · congr 1 <;> omega
  · exfalso; omega
  · exfalso; omega

theorem roundMask_px_bl (w h r x y : Nat) (hw : 2 * r ≤ w) (hh : 2 * r ≤ h)
    (hx1 : x < r) (hy2 : h - r ≤ y) (hyh : y < h) :
    (roundMask w h r).px x y = (circleStamp r).px x (r + (y - (h - r))) := by
  simp only [roundMask, Gray.paste, Gray.crop, Gray.full]
  split_ifs with h1 h2 h3 h4
  · exfalso; omega
  · congr 1 <;> omega
  · exfalso; omega
  · exfalso; omega
  · exfalso; omega

theorem roundMask_px_br (w h r x y : Nat) (hw : 2 * r ≤ w) (hh : 2 * r ≤ h)
    (hx2 : w - r ≤ x) (hxw : x < w) (hy2 : h - r ≤ y) (hyh : y < h) :
    (roundMask w h r).px x y =
      (circleStamp r).px (r + (x - (w - r))) (r + (y - (h - r))) := by
  simp only [roundMask, Gray.paste, Gray.crop, Gray.full]
  split_ifs with h1 h2 h3 h4
  · congr 1 <;> omega
  · exfalso; omega
  · exfalso; omega
  · exfalso; omega
  · exfalso; omega

theorem roundMask_px_mid (w h r x y : Nat) (hw : 2 * r ≤ w) (hh : 2 * r ≤ h)
    (hmid : (r ≤ x ∧ x < w - r) ∨ (r ≤ y ∧ y < h - r)) :
    (roundMask w h r).px x y = 255 := by
  simp only [roundMask, Gray.paste, Gray.crop, Gray.full]
  split_ifs with h1 h2 h3 h4
  · exfalso; omega
  · exfalso; omega
  · exfalso; omega
  · exfalso; omega
  · rfl

/-- Closed form of the mask: 255 inside the inscribed quarter-circle of each
r×r corner square (measured from the square's corner facing the image
centre), 0 in the rest of the corner square, 255 everywhere else. -/
theorem roundMask_px_spec (w h r x y : Nat) (hr : 0 < r)
    (hw : 2 * r ≤ w) (hh : 2 * r ≤ h) (hx : x < w) (hy : y < h) :
    (roundMask w h r).px x y =
      if x < r ∧ y < r then
        (if sqDist x y r r ≤ (r : Int) ^ 2 then 255 else 0)
      else if w - r ≤ x ∧ y < r then
        (if sqDist x y ((w : Int) - r) r ≤ (r : Int) ^ 2 then 255 else 0)
      else if x < r ∧ h - r ≤ y then
        (if sqDist x y r ((h : Int) - r) ≤ (r : Int) ^ 2 then 255 else 0)
      else if w - r ≤ x ∧ h - r ≤ y then
        (if sqDist x y ((w : Int) - r) ((h : Int) - r) ≤ (r : Int) ^ 2
          then 255 else 0)
      else 255 := by
  by_cases hx1 : x < r <;> by_cases hy1 : y < r <;>
    by_cases hx2 : w - r ≤ x <;> by_cases hy2 : h - r ≤ y
  all_goals try (exfalso; omega)
  -- top-left corner square
  · rw [roundMask_px_tl w h r x y hw hh hx1 hy1, circleStamp_px r x y hr]
    conv_rhs => rw [if_pos (show x < r ∧ y < r from ⟨hx1, hy1⟩)]
  -- bottom-left corner square
  · rw [roundMask_px_bl w h r x y hw hh hx1 hy2 hy, circleStamp_px _ _ _ hr]
    conv_rhs => rw [if_neg (show ¬(x < r ∧ y < r) from by omega),
      if_neg (show ¬(w - r ≤ x ∧ y < r) from by omega),
      if_pos (show x < r ∧ h - r ≤ y from ⟨hx1, hy2⟩)]
    have harg : ((r + (y - (h - r)) : Nat) : Int) - (r : Int) =
        (y : Int) - ((h : Int) - (r : Int)) := by omega
    simp only [sqDist, harg]
  -- left edge strip
  · rw [roundMask_px_mid w h r x y hw hh (by omega)]
    conv_rhs => rw [if_neg (show ¬(x < r ∧ y < r) from by omega),
      if_neg (show ¬(w - r ≤ x ∧ y < r) from by omega),
      if_neg (show ¬(x < r ∧ h - r ≤ y) from by omega),
      if_neg (show ¬(w - r ≤ x ∧ h - r ≤ y) from by omega)]
  -- top-right corner square
  · rw [roundMask_px_tr w h r x y hw hh hx2 hx hy1, circleStamp_px _ _ _ hr]
    conv_rhs => rw [if_neg (show ¬(x < r ∧ y < r) from by omega),
      if_pos (show w - r ≤ x ∧ y < r from ⟨hx2, hy1⟩)]
    have harg : ((r + (x - (w - r)) : Nat) : Int) - (r : Int) =
        (x : Int) - ((w : Int) - (r : Int)) := by omega
    simp only [sqDist, harg]
  -- top edge strip
  · rw [roundMask_px_mid w h r x y hw hh (by omega)]
    conv_rhs => rw [if_neg (show ¬(x < r ∧ y < r) from by omega),
      if_neg (show ¬(w - r ≤ x ∧ y < r) from by omega),
      if_neg (show ¬(x < r ∧ h - r ≤ y) from by omega),
      if_neg (show ¬(w - r ≤ x ∧ h - r ≤ y) from by omega)]
  -- bottom-right corner square
  · rw [roundMask_px_br w h r x y hw hh hx2 hx hy2 hy, circleStamp_px _ _ _ hr]
    conv_rhs => rw [if_neg (show ¬(x < r ∧ y < r) from by omega),
      if_neg (show ¬(w - r ≤ x ∧ y < r) from by omega),
      if_neg (show ¬(x < r ∧ h - r ≤ y) from by omega),
      if_pos (show w - r ≤ x ∧ h - r ≤ y from ⟨hx2, hy2⟩)]
    have harg1 : ((r + (x - (w - r)) : Nat) : Int) - (r : Int) =
        (x : Int) - ((w : Int) - (r : Int)) := by omega
    have harg2 : ((r + (y - (h - r)) : Nat) : Int) - (r : Int) =
        (y : Int) - ((h : Int) - (r : Int)) := by omega
    simp only [sqDist, harg1, harg2]
  -- right edge strip
  · rw [roundMask_px_mid w h r x y hw hh (by omega)]
    conv_rhs => rw [if_neg (show ¬(x < r ∧ y < r) from by omega),
      if_neg (show ¬(w - r ≤ x ∧ y < r) from by omega),
      if_neg (show ¬(x < r ∧ h - r ≤ y) from by omega),
      if_neg (show ¬(w - r ≤ x ∧ h - r ≤ y) from by omega)]
  -- bottom edge strip
  · rw [roundMask_px_mid w h r x y hw hh (by omega)]
    conv_rhs => rw [if_neg (show ¬(x < r ∧ y < r) from by omega),
      if_neg (show ¬(w - r ≤ x ∧ y < r) from by omega),
      if_neg (show ¬(x < r ∧ h - r ≤ y) from by omega),
      if_neg (show ¬(w - r ≤ x ∧ h - r ≤ y) from by omega)]
  -- centre region
  · rw [roundMask_px_mid w h r x y hw hh (by omega)]
    conv_rhs => rw [if_neg (show ¬(x < r ∧ y < r) from by omega),
      if_neg (show ¬(w - r ≤ x ∧ y < r) from by omega),
      if_neg (show ¬(x < r ∧ h - r ≤ y) from by omega),
      if_neg (show ¬(w - r ≤ x ∧ h - r ≤ y) from by omega)]

/-- C3: for every image size (w, h) and radius r with 0 < r and 2r ≤ min(w,h),
a pixel of the mask built by `round_corners` inside one of the four r×r corner
squares is 255 iff it lies inside the inscribed quarter-circle of radius r at
that corner (squared distance to the corner's arc centre at most r²), 0
outside that arc, and every pixel outside the four corner squares is 255. -/
theorem roundMask_quarter_circles (w h r x y : Nat) (hr : 0 < r)
    (hw : 2 * r ≤ w) (hh : 2 * r ≤ h) (hx : x < w) (hy : y < h) :
    (roundMask w h r).px x y =
      if x < r ∧ y < r then
        (if sqDist x y r r ≤ (r : Int) ^ 2 then 255 else 0)
      else if w - r ≤ x ∧ y < r then
        (if sqDist x y ((w : Int) - r) r ≤ (r : Int) ^ 2 then 255 else 0)
      else if x < r ∧ h - r ≤ y then
        (if sqDist x y r ((h : Int) - r) ≤ (r : Int) ^ 2 then 255 else 0)
      else if w - r ≤ x ∧ h - r ≤ y then
        (if sqDist x y ((w : Int) - r) ((h : Int) - r) ≤ (r : Int) ^ 2
          then 255 else 0)
      else 255 :=
  roundMask_px_spec w h r x y hr hw hh hx hy

/-- Witness for C3 at w = h = 4, r = 2, pixel (1, 1): inside the top-left
quarter-circle, hence opaque. -/
theorem roundMask_quarter_circles_witness : (roundMask 4 4 2).px 1 1 = 255 :=
  (roundMask_quarter_circles 4 4 2 1 1 (by decide) (by decide) (by decide)
    (by decide) (by decide)).trans (by decide)

/-- C10: every pixel of the mask built by `round_corners` is 0 or 255 — the
quarter-circle boundary is not anti-aliased. -/
theorem roundMask_binary (w h r x y : Nat) (hr : 0 < r)
    (hw : 2 * r ≤ w) (hh : 2 * r ≤ h) (hx : x < w) (hy : y < h) :
    (roundMask w h r).px x y = 0 ∨ (roundMask w h r).px x y = 255 := by
  rw [roundMask_px_spec w h r x y hr hw hh hx hy]
  split_ifs <;> simp

/-- Witness for C10 at w = h = 4, r = 2, pixel (0, 0). -/
theorem roundMask_binary_witness :
    (roundMask 4 4 2).px 0 0 = 0 ∨ (roundMask 4 4 2).px 0 0 = 255 :=
  roundMask_binary 4 4 2 0 0 (by decide) (by decide) (by decide) (by decide)
    (by decide)

/-- C7 counterexample: the mask of a square 4×4 image with radius 2 (which
satisfies 0 < r ≤ s/2) is NOT invariant under 180° rotation about its centre:
pixel (0, 0) has value 0 while its 180°-image, pixel (3, 3), has value 255.
The stamp circle is centred at the integer pixel (r, r) of the 2r×2r stamp
(Pillow's inclusive bounding box), so its quadrants are clipped
asymmetrically. -/
theorem roundMask_not_rotation_invariant :
    ¬ (∀ x y : Nat, x < 4 → y < 4 →
        (roundMask 4 4 2).px x y = (roundMask 4 4 2).px (4 - 1 - x) (4 - 1 - y)) := by
  intro hinv
  have h := hinv 0 0 (by decide) (by decide)
  have h0 : (roundMask 4 4 2).px 0 0 = 0 := by decide
  have h3 : (roundMask 4 4 2).px (4 - 1 - 0) (4 - 1 - 0) = 255 := by decide
  rw [h0, h3] at h
  exact absurd h (by decide)

/-- C7 amended: for a square input of side s with 0 < r and 2r ≤ s, the mask
is symmetric under transposition (reflection across the main diagonal), but
not under 90°/180°/270° rotation, which fails at arc-boundary pixels. -/
theorem roundMask_transpose_symmetric (s r x y : Nat) (hr : 0 < r)
    (hs : 2 * r ≤ s) (hx : x < s) (hy : y < s) :
    (roundMask s s r).px x y = (roundMask s s r).px y x := by
  rw [roundMask_px_spec s s r x y hr hs hs hx hy,
    roundMask_px_spec s s r y x hr hs hs hy hx]
  have e1 : sqDist x y r r = sqDist y x r r := by
    simp only [sqDist]; ring
  have e2 : sqDist x y ((s : Int) - r) r = sqDist y x r ((s : Int) - r) := by
    simp only [sqDist]; ring
  have e3 : sqDist x y r ((s : Int) - r) = sqDist y x ((s : Int) - r) r := by
    simp only [sqDist]; ring
  have e4 : sqDist x y ((s : Int) - r) ((s : Int) - r) =
      sqDist y x ((s : Int) - r) ((s : Int) - r) := by
    simp only [sqDist]; ring
  rw [e1, e2, e3, e4]
  by_cases h1 : x < r <;> by_cases h2 : y < r <;>
    by_cases h3 : s - r ≤ x <;> by_cases h4 : s - r ≤ y <;>
    first
      | (exfalso; omega)
      | simp [h1, h2, h3, h4]

/-- Witness for the amended C7 at s = 4, r = 2, pixels (0, 1) and (1, 0). -/
theorem roundMask_transpose_symmetric_witness :
    (roundMask 4 4 2).px 0 1 = (roundMask 4 4 2).px 1 0 :=
  roundMask_transpose_symmetric 4 2 0 1 (by decide) (by decide) (by decide)
    (by decide)

/-- C1 counterexample: `round_corners` does not intersect the mask with the
pre-existing alpha: the fully transparent 480×480 image has alpha 0 at the
centre pixel (240, 240) before rounding, yet alpha 255 there afterwards,
because `putalpha` replaces the whole alpha channel with the mask. -/
theorem round_corners_not_alpha_intersection :
    ¬ (∀ (logo : Img) (x y : Nat), x < logo.width → y < logo.height →
        (logo.px x y).a = 0 →
        ((round_corners logo LOGO_RADIUS).px x y).a = 0) := by
  intro hcl
  have h := hcl clearImage 240 240 (by decide) (by decide) rfl
  have h255 : ((round_corners clearImage LOGO_RADIUS).px 240 240).a = 255 := by
    decide
  rw [h] at h255
  exact absurd h255 (by decide)

/-- C1 amended: `round_corners` applies the mask by replacement, not
intersection: the alpha of every pixel after `round_corners` equals the
corner-mask value, independently of the pre-existing alpha; a transparent
input pixel therefore stays transparent only where the mask itself is 0. -/
theorem round_corners_alpha_replaced (image : Img) (radius x y : Nat) :
    ((round_corners image radius).px x y).a =
      (roundMask image.width image.height radius).px x y := rfl

/-- C4 counterexample: `round_corners` performs no assertion for images
smaller than 2r: on the 2×2 image with radius 2 (width 2 < 2r = 4) it returns
normally, silently producing the overlapping-corner mask (all four quadrant
pastes land at (0, 0) and the last one wins), with a well-defined value at
every pixel. -/
theorem round_corners_no_assertion_counterexample :
    tinyImage.width < 2 * 2 ∧
    (round_corners tinyImage 2).width = 2 ∧
    (round_corners tinyImage 2).height = 2 ∧
    ((round_corners tinyImage 2).px 0 0).a = 255 := by
  refine ⟨by decide, rfl, rfl, by decide⟩

/-- C4 amended: `round_corners` has no size guard: even for an image smaller
than 2r in either dimension it returns an image of the unchanged size whose
alpha channel is the (silently overlapping) corner mask. -/
theorem round_corners_no_size_guard (image : Img) (radius : Nat)
    (_hsmall : image.width < 2 * radius ∨ image.height < 2 * radius) :
    (round_corners image radius).width = image.width ∧
    (round_corners image radius).height = image.height ∧
    ∀ x y : Nat, ((round_corners image radius).px x y).a =
      (roundMask image.width image.height radius).px x y :=
  ⟨rfl, rfl, fun _ _ => rfl⟩

/-- Witness for the amended C4 on the 2×2 image with radius 2. -/
theorem round_corners_no_size_guard_witness :
    ((round_corners tinyImage 2).px 0 0).a =
      (roundMask tinyImage.width tinyImage.height 2).px 0 0 :=
  (round_corners_no_size_guard tinyImage 2 (Or.inl (by decide))).2.2 0 0

/-- C5: the paste position of the logo is computed by integer floor division
as (402, 1149), and the 480×480 logo's bounding-box centre coincides exactly
(hence within ±1 pixel) with the 1284×2778 canvas centre. -/
theorem logo_position_centred :
    logo_x = 402 ∧ logo_y = 1149 ∧
    logo_x + LOGO_SIZE / 2 = SPLASH_WIDTH / 2 ∧
    logo_y + LOGO_SIZE / 2 = SPLASH_HEIGHT / 2 := by
  refine ⟨rfl, rfl, rfl, rfl⟩

theorem blendChan_full (d s : Nat) : blendChan d s 255 = s := by
  unfold blendChan
  omega

theorem blendPix_full (d s : Pix) : blendPix d s 255 = s := by
  cases s
  simp [blendPix, blendChan_full]

theorem pasteMasked_px_out (dst src : Img) (ox oy : Int) (x y : Nat)
    (h : ¬(ox ≤ (x : Int) ∧ (x : Int) < ox + (src.width : Int) ∧
        oy ≤ (y : Int) ∧ (y : Int) < oy + (src.height : Int))) :
    (dst.pasteMasked src ox oy).px x y = dst.px x y := by
  simp only [Img.pasteMasked]
  rw [if_neg h]

theorem pasteMasked_px_in (dst src : Img) (ox oy : Int) (x y : Nat)
    (h : ox ≤ (x : Int) ∧ (x : Int) < ox + (src.width : Int) ∧
        oy ≤ (y : Int) ∧ (y : Int) < oy + (src.height : Int)) :
    (dst.pasteMasked src ox oy).px x y =
      (if dst.mode = .RGB then
        { blendPix (dst.px x y) (src.px ((x : Int) - ox).toNat ((y : Int) - oy).toNat)
            (src.px ((x : Int) - ox).toNat ((y : Int) - oy).toNat).a with a := 255 }
      else
        blendPix (dst.px x y) (src.px ((x : Int) - ox).toNat ((y : Int) - oy).toNat)
          (src.px ((x : Int) - ox).toNat ((y : Int) - oy).toNat).a) := by
  simp only [Img.pasteMasked]
  rw [if_pos h]

/-- Background pixels of the composed splash: outside the pasted logo's
bounding box every pixel of the final image equals the background colour. -/
theorem compose_splash_bg (logo : Img) (bg : Pix) (hbga : bg.a = 255)
    (x y : Nat) (hx : x < SPLASH_WIDTH) (hy : y < SPLASH_HEIGHT)
    (hout : x < logo_x ∨ logo_x + LOGO_SIZE ≤ x ∨
      y < logo_y ∨ logo_y + LOGO_SIZE ≤ y) :
    (compose_splash logo bg).px x y = bg := by
  simp only [compose_splash]
  have hsplash :
      ((Img.new .RGBA SPLASH_WIDTH SPLASH_HEIGHT bg).pasteMasked
        (round_corners ((logo.convertRGBA).resize LOGO_SIZE LOGO_SIZE) LOGO_RADIUS)
        (logo_x : Int) (logo_y : Int)).px x y = bg := by
    rw [pasteMasked_px_out]
    · rfl
    · simp only [round_corners, Img.putalpha, Img.resize, Img.convertRGBA,
        logo_x, logo_y, SPLASH_WIDTH, SPLASH_HEIGHT, LOGO_SIZE] at *
      omega
  rw [pasteMasked_px_in]
  · rw [if_pos (show (Img.new Mode.RGB SPLASH_WIDTH SPLASH_HEIGHT bg).mode =
      Mode.RGB from rfl)]
    have hx0 : ((x : Int) - 0).toNat = x := by omega
    have hy0 : ((y : Int) - 0).toNat = y := by omega
    rw [hx0, hy0, hsplash, hbga, blendPix_full]
    cases bg
    simp only [Pix.mk.injEq] at *
    simp [hbga]
  · simp only [Img.pasteMasked, Img.new, SPLASH_WIDTH, SPLASH_HEIGHT] at *
    omega

/-- C8: in each generated splash image every pixel outside the 480×480
bounding box of the pasted logo equals the configured background colour
exactly: opaque black for the dark variant and #F2F2F7 for the light one. -/
theorem background_pixels_exact (logo : Img) (x y : Nat)
    (hx : x < SPLASH_WIDTH) (hy : y < SPLASH_HEIGHT)
    (hout : x < logo_x ∨ logo_x + LOGO_SIZE ≤ x ∨
      y < logo_y ∨ logo_y + LOGO_SIZE ≤ y) :
    (compose_splash logo DARK_BG).px x y = ⟨0, 0, 0, 255⟩ ∧
    (compose_splash logo LIGHT_BG).px x y = ⟨242, 242, 247, 255⟩ :=
  ⟨compose_splash_bg logo DARK_BG rfl x y hx hy hout,
    compose_splash_bg logo LIGHT_BG rfl x y hx hy hout⟩

/-- Witness for C8 at the top-left canvas pixel (0, 0). -/
theorem background_pixels_exact_witness :
    (compose_splash onePxLogo DARK_BG).px 0 0 = ⟨0, 0, 0, 255⟩ ∧
    (compose_splash onePxLogo LIGHT_BG).px 0 0 = ⟨242, 242, 247, 255⟩ :=
  background_pixels_exact onePxLogo 0 0 (by decide) (by decide)
    (Or.inl (by decide))

/-- C6: if the logo file does not exist, `main` prints a diagnostic message
and returns before any image processing: zero output files are written and no
fault is raised (the result is a normal return, not an error). -/
theorem main_missing_logo (fs : FS) (h : fs.pathExists LOGO_PATH = false) :
    main fs = .ok ⟨[], ["Error: Logo not found at " ++ LOGO_PATH]⟩ := by
  simp only [main]
  rw [if_pos h]

/-- Witness for C6 on the empty filesystem. -/
theorem main_missing_logo_witness :
    main emptyFS = .ok ⟨[], ["Error: Logo not found at " ++ LOGO_PATH]⟩ :=
  main_missing_logo emptyFS rfl

/-- C2: for every decodable input logo image of any dimensions, `main`
produces exactly two output files, `assets/splash-dark.png` then
`assets/splash-light.png`, each of pixel dimensions exactly 1284×2778 and in
RGB mode (no alpha channel). -/
theorem main_two_outputs (fs : FS) (logo : Img)
    (hex : fs.pathExists LOGO_PATH = true)
    (hread : fs.read LOGO_PATH = some logo) :
    ∃ res : RunResult, main fs = .ok res ∧
      res.outputs.map Prod.fst = [dark_output, light_output] ∧
      res.outputs.length = 2 ∧
      ∀ p ∈ res.outputs,
        p.2.width = 1284 ∧ p.2.height = 2778 ∧ p.2.mode = Mode.RGB := by
  have hmain : main fs = .ok
      ⟨[(dark_output, compose_splash logo DARK_BG),
        (light_output, compose_splash logo LIGHT_BG)],
        ["Generating splash screens...",
          "Created: " ++ dark_output,
          "Created: " ++ light_output,
          "All splash screens generated successfully!"]⟩ := by
    simp only [main, create_splash_screen, hread]
    rw [if_neg (by simp [hex])]
  refine ⟨_, hmain, rfl, rfl, ?_⟩
  intro p hp
  simp only [List.mem_cons, List.not_mem_nil, or_false] at hp
  rcases hp with h | h <;> subst h <;> exact ⟨rfl, rfl, rfl⟩

/-- Witness for C2 on a filesystem holding a decodable 1×1 logo. -/
theorem main_two_outputs_witness :
    ∃ res : RunResult, main logoFS = .ok res ∧
      res.outputs.map Prod.fst = [dark_output, light_output] ∧
      res.outputs.length = 2 ∧
      ∀ p ∈ res.outputs,
        p.2.width = 1284 ∧ p.2.height = 2778 ∧ p.2.mode = Mode.RGB :=
  main_two_outputs logoFS onePxLogo rfl rfl

/-- C9: the generator is deterministic: its entire result (both output
images and all messages) depends only on the logo file the filesystem serves
and the fixed configuration constants, so two runs with the same logo are
identical. -/
theorem main_deterministic (fs1 fs2 : FS)
    (hex : fs1.pathExists LOGO_PATH = fs2.pathExists LOGO_PATH)
    (hread : fs1.read LOGO_PATH = fs2.read LOGO_PATH) :
    main fs1 = main fs2 := by
  simp only [main, create_splash_screen, hex, hread]

/-- Witness for C9: two runs on the same filesystem agree. -/
theorem main_deterministic_witness : main logoFS = main logoFS :=
  main_deterministic logoFS logoFS rfl rfl

end Splash
